import Mathlib

/-!
Verification of the retrieval-and-grounding core of a RAG legal assistant
(`src/app.py`).  The Python source is shallowly embedded: JSON metadata
records become `Item` values whose optional string fields distinguish a
missing key, a JSON `null`, and a present string (the three behave
differently under Python's `dict.get` and f-string rendering); the FAISS
search is abstracted as a function returning parallel distance/index lists;
Streamlit session state is threaded explicitly through `search_law`.
-/

/-- A JSON field of a metadata record as Python sees it: the key may be
absent from the dict, present with value `None` (JSON `null`), or present
with a string value. -/
inductive JField where
  | missing : JField
  | null : JField
  | str : String → JField
deriving DecidableEq, Repr

namespace JField

/-- Python truthiness of `item.get(key)`: a missing key yields `None`
(falsy), `None` is falsy, `""` is falsy, any other string is truthy. -/
def truthy : JField → Bool
  | .missing => false
  | .null => false
  | .str s => s ≠ ""

/-- Rendering of `item.get(key, '')` inside an f-string: a missing key
takes the default `''`; `None` renders as the string `"None"`; a string
renders as itself. -/
def fstrD : JField → String
  | .missing => ""
  | .null => "None"
  | .str s => s

/-- Rendering of `item[key]` inside an f-string, evaluated only under a
truthiness guard, hence only on present string values. -/
def fstr : JField → String
  | .missing => ""
  | .null => "None"
  | .str s => s

/-- Python `item['subsection'] not in [None, '', 'null']`. -/
def notInNullForms : JField → Bool
  | .missing => true
  | .null => false
  | .str s => s ≠ "" && s ≠ "null"

end JField

/-- One provision record of `final_legal_laws_metadata.json`. -/
structure Item where
  chapter : JField
  «section» : JField
  subsection : JField
  section_title : JField
  text : JField
deriving DecidableEq, Repr

/-- The dedup key of `search_law` (src/app.py line 64):
`f"{item.get('section', '')}-{item.get('subsection', '')}"`. -/
def sectionKey (item : Item) : String :=
  item.«section».fstrD ++ "-" ++ item.subsection.fstrD

/-- Python list indexing `metadata[idx]` on an `int` index: non-negative
indices count from the front, negative indices from the back, and an index
out of range on either side raises `IndexError` (modelled as `none`). -/
def pyGet (metadata : List Item) (idx : Int) : Option Item :=
  if 0 ≤ idx then
    if idx < (metadata.length : Int) then metadata.get? idx.toNat else none
  else
    if 0 ≤ idx + (metadata.length : Int) then
      metadata.get? (idx + (metadata.length : Int)).toNat
    else none

/-- The retrieval loop of `search_law` (src/app.py lines 61-69): walk the
neighbor indices in order; skip an index `≥ len(metadata)`; resolve the
record by Python indexing (an `IndexError` aborts, `none`); skip a record
whose dedup key was already seen; otherwise retain it and record its key. -/
def retrieveLoop (metadata : List Item) : List Int → List String → Option (List Item)
  | [], _ => some []
  | idx :: rest, seen =>
    if idx < (metadata.length : Int) then
      match pyGet metadata idx with
      | none => none
      | some item =>
        if sectionKey item ∈ seen then
          retrieveLoop metadata rest seen
        else
          (retrieveLoop metadata rest (sectionKey item :: seen)).map (item :: ·)
    else
      retrieveLoop metadata rest seen

/-- The citation parts built in `search_law` lines 75-81 and
`format_citation` lines 294-300 (both use the same three guards). -/
def citationParts (item : Item) : List String :=
  (if item.chapter.truthy then ["Chapter " ++ item.chapter.fstr] else [])
    ++ (if item.«section».truthy then ["Section " ++ item.«section».fstr] else [])
    ++ (if item.subsection.truthy && item.subsection.notInNullForms then
          ["Sub-section " ++ item.subsection.fstr]
        else [])

/-- `format_citation` (src/app.py lines 292-304): the comma-space join of
the present parts, falling back to an explicit marker when no part is
present. -/
def format_citation (item : Item) : String :=
  let parts := citationParts item
  if parts.isEmpty then "Citation not available" else String.intercalate ", " parts

/-- One context block of `search_law` line 84:
`f"[{citation}] {item.get('text', '')}"`, with no fallback for an empty
citation. -/
def chunkOf (item : Item) : String :=
  "[" ++ String.intercalate ", " (citationParts item) ++ "] " ++ item.text.fstrD

/-- Streamlit session state as far as `search_law` touches it
(src/app.py lines 86-88). -/
structure SessionState where
  retrieved_items : List Item
  llm_context : String
deriving DecidableEq, Repr

/-- `search_law` (src/app.py lines 52-90).  The sentence-transformer
encoder and the FAISS index are passed as functions (`sbert.encode` and
`index.search`); the FAISS result is the pair of parallel lists
`(distances[0], indices[0])`.  The function stores the retained items and
the joined context into the session state and returns the joined context. -/
def search_law (sbert : String → List Rat)
    (indexSearch : List Rat → Nat → List Rat × List Int)
    (metadata : List Item) (query : String) (k : Nat)
    (st : SessionState) : Option (SessionState × String) :=
  let q_emb := sbert query
  let found := indexSearch q_emb k
  match retrieveLoop metadata found.2 [] with
  | none => none
  | some retrieved_items =>
    let ctx := String.intercalate "\n\n" (retrieved_items.map chunkOf)
    some ({ retrieved_items := retrieved_items, llm_context := ctx }, ctx)

/-- `load_embeddings` (src/app.py lines 24-39): each artifact is `none`
when reading it raises (missing or malformed file) and `some` of its
parsed content otherwise.  Any exception is caught, an error is shown, and
`(None, None, None)` is returned (modelled as `none`); no check compares
the two artifacts' lengths. -/
def load_embeddings (embFile : Option (List (List Rat)))
    (metaFile : Option (List Item)) : Option (List (List Rat) × List Item) :=
  match embFile, metaFile with
  | some emb, some meta => some (emb, meta)
  | _, _ => none

/-- The startup guard of `main` (src/app.py lines 328-331): queries are
served only when `load_embeddings` returned loaded artifacts. -/
def servesQueries (loaded : Option (List (List Rat) × List Item)) : Bool :=
  loaded.isSome

/-- Python `s.split(sep)` over code-point lists (a Python `str` is a
sequence of code points), for a nonempty `sep`: scan left to right, cut at
every non-overlapping occurrence of `sep`.  The fuel argument only bounds
the recursion; `pySplit` supplies enough fuel that it is never exhausted. -/
def pySplitAux (sep : List Char) : Nat → List Char → List Char → List (List Char)
  | 0, s, acc => [acc.reverse ++ s]
  | fuel + 1, s, acc =>
    match s with
    | [] => [acc.reverse]
    | c :: rest =>
      if sep.isPrefixOf (c :: rest) then
        acc.reverse :: pySplitAux sep fuel (rest.drop (sep.length - 1)) []
      else
        pySplitAux sep fuel rest (c :: acc)

/-- Python `s.split(sep)` for strings. -/
def pySplitStr (s sep : String) : List String :=
  (pySplitAux sep.data s.data.length s.data []).map String.mk

/-- Python whitespace as stripped by `str.strip()`. -/
def pySpace (c : Char) : Bool :=
  c = ' ' || c = '\t' || c = '\n' || c = '\x0d' || c = '\x0b' || c = '\x0c'

/-- Python `s.strip()`: drop whitespace from both ends. -/
def pyStripStr (s : String) : String :=
  String.mk (((s.data.dropWhile pySpace).reverse.dropWhile pySpace).reverse)

/-- Python `marker in answer` for a nonempty marker, expressed through
`split`: a substring occurs iff splitting on it yields at least two
pieces. -/
def pyContains (s m : String) : Bool :=
  2 ≤ (pySplitStr s m).length

/-- Python `s.split(sep)[i]`: `none` models the `IndexError` raised when
the split list is too short. -/
def pySplitIdx (s sep : String) (i : Nat) : Option String :=
  (pySplitStr s sep).get? i

/-- The parsed display form of a model response. -/
structure GroundedAnswer where
  answer_text : String
  source_text : String
deriving DecidableEq, Repr

/-- The response parsing of `main` (src/app.py lines 398-408): when both
markers occur, `answer_text = answer.split("Answer:")[1].split("Source:")[0].strip()`
and `source_text = answer.split("Source:")[1].strip()`; otherwise the whole
response is displayed as the answer. -/
def parse_display (answer : String) : Option GroundedAnswer :=
  if pyContains answer "Answer:" && pyContains answer "Source:" then
    match pySplitIdx answer "Answer:" 1 with
    | none => none
    | some seg =>
      match pySplitIdx answer "Source:" 1 with
      | none => none
      | some src =>
        match pySplitIdx seg "Source:" 0 with
        | none => none
        | some pre =>
          some { answer_text := pyStripStr pre, source_text := pyStripStr src }
  else
    some { answer_text := answer, source_text := "" }

/-- The mandated refusal sentence of the prompt (src/app.py line 131). -/
def refusal_sentence : String :=
  "The provided sections of the National Penal Code, 2017 do not mention this."

/-- Modelled from the spec: the repository never materialises the
`is_refusal` flag of a `GroundedAnswer`; the spec derives it by matching
the exact refusal sentence ("`is_refusal` is true iff `answer_text`
exactly equals the mandated refusal sentence"). -/
def is_refusal (ga : GroundedAnswer) : Bool :=
  ga.answer_text = refusal_sentence

/-!
Definitions that restate the SPEC's wording, to be compared with the
code-derived definitions above (dedup-key normalization for C1, the
marker-extraction contract for C2).
-/

/-- The spec's normalization of the subsection half of the dedup key:
JSON `null`, the empty string, the literal string `"null"` (and an absent
key) all normalize to one absent marker. -/
def specNormSubsection : JField → Option String
  | .missing => none
  | .null => none
  | .str s => if s = "" || s = "null" then none else some s

/-- The spec's normalized `(section, subsection)` dedup key. -/
def specNormKey (item : Item) : JField × Option String :=
  (item.«section», specNormSubsection item.subsection)

/-- Everything after the first occurrence of marker `m` (empty when `m`
does not occur): the split pieces after the first cut, re-joined with `m`. -/
def afterFirstMarker (s m : String) : String :=
  String.intercalate m (pySplitStr s m).tail

/-- Everything up to the first occurrence of marker `m`. -/
def upToFirstMarker (s m : String) : String :=
  (pySplitStr s m).headI

/-- The claim's extraction of `answer_text`: the text between the first
occurrence of `Answer:` and the first occurrence of `Source:` after it,
stripped. -/
def claim_answer_text (s : String) : String :=
  pyStripStr (upToFirstMarker (afterFirstMarker s "Answer:") "Source:")

/-- The claim's extraction of `source_text`: everything after the first
occurrence of `Source:`, stripped. -/
def claim_source_text (s : String) : String :=
  pyStripStr (afterFirstMarker s "Source:")

/-!
Ghost decompositions of the retrieval loop, used to state and prove the
dedup and ordering theorems: `resolvedHits` performs only the guard and
index resolution of lines 61-63, `firstOcc` only the first-occurrence
dedup of lines 64-69, and `retrieveLoopP` is the loop with each retained
record paired with the search distance of the neighbor that produced it.
-/

/-- The guard-and-resolve part of the loop: indices `≥ len(metadata)` are
skipped, the rest resolve by Python indexing (`none` on `IndexError`). -/
def resolvedHits (metadata : List Item) : List Int → Option (List Item)
  | [] => some []
  | idx :: rest =>
    if idx < (metadata.length : Int) then
      match pyGet metadata idx with
      | none => none
      | some item => (resolvedHits metadata rest).map (item :: ·)
    else
      resolvedHits metadata rest

/-- First-occurrence deduplication by `sectionKey`, given already-seen
keys. -/
def firstOcc : List Item → List String → List Item
  | [], _ => []
  | item :: rest, seen =>
    if sectionKey item ∈ seen then
      firstOcc rest seen
    else
      item :: firstOcc rest (sectionKey item :: seen)

/-- The retrieval loop over `(distance, index)` pairs, retaining each
record together with its neighbor's distance. -/
def retrieveLoopP (metadata : List Item) :
    List (Rat × Int) → List String → Option (List (Rat × Item))
  | [], _ => some []
  | (d, idx) :: rest, seen =>
    if idx < (metadata.length : Int) then
      match pyGet metadata idx with
      | none => none
      | some item =>
        if sectionKey item ∈ seen then
          retrieveLoopP metadata rest seen
        else
          (retrieveLoopP metadata rest (sectionKey item :: seen)).map ((d, item) :: ·)
    else
      retrieveLoopP metadata rest seen

/-!
Helper lemmas.
-/

theorem pySplitAux_ne_nil (sep : List Char) :
    ∀ (fuel : Nat) (s acc : List Char), pySplitAux sep fuel s acc ≠ []
  | 0, s, acc => by simp [pySplitAux]
  | fuel + 1, s, acc => by
    cases s with
    | nil => simp [pySplitAux]
    | cons c rest =>
      simp only [pySplitAux]
      split
      · simp
      · exact pySplitAux_ne_nil sep fuel rest (c :: acc)

/-- Python's `split` always returns at least one piece, so the code's
`split(...)[0]` can never raise. -/
theorem pySplitStr_ne_nil (s sep : String) : pySplitStr s sep ≠ [] := by
  unfold pySplitStr
  intro h
  exact pySplitAux_ne_nil sep.data s.data.length s.data [] (List.map_eq_nil.mp h)

theorem list_get?_eq_some_getD {α : Type} (l : List α) (n : Nat) (d : α)
    (h : n < l.length) : l.get? n = some (l.getD n d) := by
  rw [List.getD_eq_get?]
  cases hg : l.get? n with
  | none => rw [List.get?_eq_none] at hg; omega
  | some a => simp

theorem list_get?_zero_of_ne_nil {α : Type} [Inhabited α] (l : List α)
    (h : l ≠ []) : l.get? 0 = some l.headI := by
  cases l with
  | nil => exact absurd rfl h
  | cons a t => rfl

/-- The retrieval loop factors into guard-and-resolve followed by
first-occurrence dedup. -/
theorem retrieveLoop_eq_firstOcc (metadata : List Item) :
    ∀ (inds : List Int) (seen : List String),
      retrieveLoop metadata inds seen =
        (resolvedHits metadata inds).map (fun l => firstOcc l seen)
  | [], seen => by simp [retrieveLoop, resolvedHits, firstOcc]
  | idx :: rest, seen => by
    simp only [retrieveLoop, resolvedHits]
    split
    · cases hg : pyGet metadata idx with
      | none => simp
      | some item =>
        simp only
        by_cases hk : sectionKey item ∈ seen
        · rw [if_pos hk, retrieveLoop_eq_firstOcc metadata rest seen]
          cases resolvedHits metadata rest <;> simp [firstOcc, hk]
        · rw [if_neg hk, retrieveLoop_eq_firstOcc metadata rest (sectionKey item :: seen)]
          cases resolvedHits metadata rest <;> simp [firstOcc, hk]
    · exact retrieveLoop_eq_firstOcc metadata rest seen

/-- Nothing retained by `firstOcc` carries a key that was already seen. -/
theorem firstOcc_not_seen :
    ∀ (l : List Item) (seen : List String) (a : Item),
      a ∈ firstOcc l seen → sectionKey a ∉ seen
  | [], seen, a => by simp [firstOcc]
  | item :: rest, seen, a => by
    simp only [firstOcc]
    by_cases hk : sectionKey item ∈ seen
    · rw [if_pos hk]
      exact firstOcc_not_seen rest seen a
    · rw [if_neg hk]
      intro h hmem
      rcases List.mem_cons.mp h with h1 | h2
      · exact hk (h1 ▸ hmem)
      · exact firstOcc_not_seen rest _ a h2 (List.mem_cons_of_mem _ hmem)

/-- The keys of the records retained by `firstOcc` are pairwise distinct. -/
theorem firstOcc_pairwise :
    ∀ (l : List Item) (seen : List String),
      (firstOcc l seen).Pairwise (fun a b => sectionKey a ≠ sectionKey b)
  | [], _ => by simp [firstOcc]
  | item :: rest, seen => by
    simp only [firstOcc]
    by_cases hk : sectionKey item ∈ seen
    · rw [if_pos hk]
      exact firstOcc_pairwise rest seen
    · rw [if_neg hk]
      refine List.Pairwise.cons ?_ (firstOcc_pairwise rest _)
      intro b hb heq
      exact firstOcc_not_seen rest _ b hb (heq ▸ List.mem_cons_self _ _)

/-- Forgetting the distances in the paired loop gives back the code's
loop. -/
theorem retrieveLoopP_map_snd (metadata : List Item) :
    ∀ (pairs : List (Rat × Int)) (seen : List String),
      retrieveLoop metadata (pairs.map Prod.snd) seen =
        (retrieveLoopP metadata pairs seen).map (List.map Prod.snd)
  | [], seen => by simp [retrieveLoop, retrieveLoopP]
  | (d, idx) :: rest, seen => by
    simp only [List.map_cons, retrieveLoop, retrieveLoopP]
    split
    · cases hg : pyGet metadata idx with
      | none => simp
      | some item =>
        simp only
        by_cases hk : sectionKey item ∈ seen
        · rw [if_pos hk, if_pos hk]
          exact retrieveLoopP_map_snd metadata rest seen
        · rw [if_neg hk, if_neg hk,
            retrieveLoopP_map_snd metadata rest (sectionKey item :: seen)]
          cases retrieveLoopP metadata rest (sectionKey item :: seen) <;> simp
    · exact retrieveLoopP_map_snd metadata rest seen

/-- The distances of the retained records form a sublist (in order) of the
search distances. -/
theorem retrieveLoopP_fst_sublist (metadata : List Item) :
    ∀ (pairs : List (Rat × Int)) (seen : List String) (res : List (Rat × Item)),
      retrieveLoopP metadata pairs seen = some res →
      List.Sublist (res.map Prod.fst) (pairs.map Prod.fst)
  | [], seen, res => by
    intro h
    simp [retrieveLoopP] at h
    simp [h.symm]
  | (d, idx) :: rest, seen, res => by
    simp only [retrieveLoopP, List.map_cons]
    split
    · cases hg : pyGet metadata idx with
      | none => intro h; cases h
      | some item =>
        simp only
        by_cases hk : sectionKey item ∈ seen
        · rw [if_pos hk]
          intro h
          exact (retrieveLoopP_fst_sublist metadata rest seen res h).cons d
        · rw [if_neg hk]
          cases hr : retrieveLoopP metadata rest (sectionKey item :: seen) with
          | none => intro h; cases h
          | some res' =>
            intro h
            have h' : ((d, item) :: res') = res := by simpa using h
            have := retrieveLoopP_fst_sublist metadata rest _ res' hr
            rw [← h']
            simpa using this.cons₂ d
    · intro h
      exact (retrieveLoopP_fst_sublist metadata rest seen res h).cons d

/-!
Concrete fixtures used by witnesses and counterexamples.
-/

/-- A record whose subsection is JSON `null`. -/
def nullSubItem : Item := ⟨.str "5", .str "41", .null, .missing, .str "A"⟩

/-- A record whose subsection is the empty string. -/
def emptySubItem : Item := ⟨.str "5", .str "41", .str "", .missing, .str "B"⟩

/-- A record with every citation field absent (in three different
spellings). -/
def bareItem : Item := ⟨.missing, .null, .str "", .missing, .str "x"⟩

/-- A two-record corpus whose records differ only in the spelling of their
absent subsection. -/
def twoItemMeta : List Item := [nullSubItem, emptySubItem]

/-- A record with chapter `"1"`, section `"7"`, text `"A"`. -/
def chapOneItem : Item := ⟨.str "1", .str "7", .missing, .missing, .str "A"⟩

/-- A record with chapter `"2"`, section `"8"`, text `"B"`. -/
def chapTwoItem : Item := ⟨.str "2", .str "8", .missing, .missing, .str "B"⟩

/-- A two-record corpus with distinct chapters and sections. -/
def abMeta : List Item := [chapOneItem, chapTwoItem]

/-- A constant stand-in for the deterministic sentence encoder. -/
def sbert0 : String → List Rat := fun _ => [0]

/-- A stand-in index search returning two neighbors at distances 1 and 2. -/
def searchTwo : List Rat → Nat → List Rat × List Int := fun _ _ => ([1, 2], [0, 1])

/-- A model response with a duplicated `Answer:` and a duplicated
`Source:` marker. -/
def dupMarkerResponse : String := "Answer: A Answer: B Source: C Source: D"

/-- Evaluation of the parse when both markers occur: each `[1]` indexing
succeeds, and the retained pieces are the ones the code's `split` chain
produces. -/
theorem parse_display_of_contains (answer : String)
    (hA : pyContains answer "Answer:" = true)
    (hS : pyContains answer "Source:" = true) :
    parse_display answer =
      some { answer_text :=
               pyStripStr (upToFirstMarker ((pySplitStr answer "Answer:").getD 1 "") "Source:"),
             source_text := pyStripStr ((pySplitStr answer "Source:").getD 1 "") } := by
  have hA2 : 1 < (pySplitStr answer "Answer:").length := by
    have := of_decide_eq_true hA
    omega
  have hS2 : 1 < (pySplitStr answer "Source:").length := by
    have := of_decide_eq_true hS
    omega
  have hseg : pySplitIdx answer "Answer:" 1 =
      some ((pySplitStr answer "Answer:").getD 1 "") :=
    list_get?_eq_some_getD _ 1 "" hA2
  have hsrc : pySplitIdx answer "Source:" 1 =
      some ((pySplitStr answer "Source:").getD 1 "") :=
    list_get?_eq_some_getD _ 1 "" hS2
  have hpre : pySplitIdx ((pySplitStr answer "Answer:").getD 1 "") "Source:" 0 =
      some (upToFirstMarker ((pySplitStr answer "Answer:").getD 1 "") "Source:") :=
    list_get?_zero_of_ne_nil _ (pySplitStr_ne_nil _ _)
  simp only [List.getD_eq_getElem?_getD] at hseg hsrc hpre ⊢
  simp [parse_display, hA, hS, hseg, hsrc, hpre]

/-!
Claim theorems.
-/

/-- Claim C1, counterexample: the code deduplicates on the raw f-string
key, not on the spec's normalized key.  A corpus whose two records carry
subsection `null` and subsection `""` (same section) yields two retained
hits whose spec-normalized `(section, subsection)` keys coincide. -/
theorem c1_normalized_dedup_counterexample :
    retrieveLoop twoItemMeta [0, 1] [] = some [nullSubItem, emptySubItem] ∧
    specNormKey nullSubItem = specNormKey emptySubItem ∧
    nullSubItem ≠ emptySubItem := by
  decide

/-- Claim C1, amended: no two retained hits share the same RAW dedup key
`f"{section}-{subsection}"` (a missing field renders as the empty string,
a JSON `null` renders as `"None"`; the spellings `null`, `""` and the
literal `"null"` are NOT identified), and the retained list is exactly the
first-occurrence dedup, by that raw key, of the guard-resolved neighbor
list, so the first-encountered hit with each raw key wins. -/
theorem c1_raw_key_dedup (metadata : List Item) (inds : List Int)
    (res : List Item) (h : retrieveLoop metadata inds [] = some res) :
    res.Pairwise (fun a b => sectionKey a ≠ sectionKey b) ∧
    ∃ l, resolvedHits metadata inds = some l ∧ res = firstOcc l [] := by
  rw [retrieveLoop_eq_firstOcc] at h
  cases hr : resolvedHits metadata inds with
  | none => rw [hr] at h; cases h
  | some l =>
    rw [hr] at h
    simp only [Option.map] at h
    have hres : firstOcc l [] = res := by simpa using h
    exact ⟨hres ▸ firstOcc_pairwise l [], l, rfl, hres.symm⟩

/-- Claim C1, witness for the amended theorem at a concrete run. -/
theorem c1_raw_key_dedup_witness :
    ([nullSubItem, emptySubItem].Pairwise (fun a b => sectionKey a ≠ sectionKey b)) ∧
    ∃ l, resolvedHits twoItemMeta [0, 1] = some l ∧
      [nullSubItem, emptySubItem] = firstOcc l [] :=
  c1_raw_key_dedup twoItemMeta [0, 1] [nullSubItem, emptySubItem] (by decide)

/-- Claim C2, counterexample: on a response with duplicated markers the
code's `split(...)[1]` chain stops at the SECOND occurrence of each
marker, so the extracted texts differ from the claim's "between the first
`Answer:` and the first `Source:`" / "everything after `Source:`". -/
theorem c2_marker_split_counterexample :
    parse_display dupMarkerResponse =
      some { answer_text := "A", source_text := "C" } ∧
    claim_answer_text dupMarkerResponse = "A Answer: B" ∧
    claim_source_text dupMarkerResponse = "C Source: D" ∧
    ("A" : String) ≠ "A Answer: B" ∧ ("C" : String) ≠ "C Source: D" := by
  decide

/-- Claim C2, amended: parsing is total (never crashes), for absent,
duplicated or out-of-order markers alike; and when both markers occur,
`answer_text` is the piece of the response between the first and second
occurrences of `Answer:` (to the end if unique), truncated at the first
`Source:` inside that piece, and `source_text` is the piece between the
first and second occurrences of `Source:` (to the end if unique), both
whitespace-stripped. -/
theorem c2_parse_segments (answer : String) :
    (parse_display answer).isSome = true ∧
    ((pyContains answer "Answer:" && pyContains answer "Source:") = true →
      parse_display answer =
        some { answer_text :=
                 pyStripStr
                   (upToFirstMarker ((pySplitStr answer "Answer:").getD 1 "") "Source:"),
               source_text := pyStripStr ((pySplitStr answer "Source:").getD 1 "") }) := by
  constructor
  · by_cases hb : (pyContains answer "Answer:" && pyContains answer "Source:") = true
    · obtain ⟨hA, hS⟩ := Bool.and_eq_true_iff.mp hb
      rw [parse_display_of_contains answer hA hS]
      rfl
    · unfold parse_display
      rw [if_neg hb]
      rfl
  · intro hb
    obtain ⟨hA, hS⟩ := Bool.and_eq_true_iff.mp hb
    exact parse_display_of_contains answer hA hS

/-- Claim C2, witness for the amended theorem at a concrete response. -/
theorem c2_parse_segments_witness :
    (parse_display "Answer: x Source: y").isSome = true ∧
    parse_display "Answer: x Source: y" =
      some { answer_text :=
               pyStripStr
                 (upToFirstMarker ((pySplitStr "Answer: x Source: y" "Answer:").getD 1 "")
                   "Source:"),
             source_text :=
               pyStripStr ((pySplitStr "Answer: x Source: y" "Source:").getD 1 "") } :=
  ⟨(c2_parse_segments "Answer: x Source: y").1,
   (c2_parse_segments "Answer: x Source: y").2 (by decide)⟩

/-- Claim C3: for every parsed response, the (spec-modelled) `is_refusal`
flag is true exactly when the parsed `answer_text` byte-for-byte equals
the mandated refusal sentence; any deviation yields `false`. -/
theorem c3_refusal_exact (raw : String) (ga : GroundedAnswer)
    (h : parse_display raw = some ga) :
    is_refusal ga = true ↔ ga.answer_text = refusal_sentence := by
  simp [is_refusal]

/-- Claim C3, witness: a response carrying the verbatim refusal sentence
parses to a `GroundedAnswer` classified as a refusal, and a near-miss
answer text (an extra period) is not. -/
theorem c3_refusal_exact_witness :
    (is_refusal { answer_text := refusal_sentence, source_text := "x" } = true ↔
      ({ answer_text := refusal_sentence, source_text := "x" } : GroundedAnswer).answer_text =
        refusal_sentence) ∧
    is_refusal { answer_text := refusal_sentence, source_text := "x" } = true ∧
    is_refusal { answer_text := refusal_sentence ++ ".", source_text := "x" } = false :=
  ⟨c3_refusal_exact ("Answer: " ++ refusal_sentence ++ " Source: x")
      { answer_text := refusal_sentence, source_text := "x" } (by decide),
   by decide, by decide⟩

/-- Claim C4: the citation is the comma-space join of the present parts
(absent parts simply omitted): the record `{chapter: "5", section: "41",
subsection: null}` yields exactly `"Chapter 5, Section 41"` whatever its
title and text; when no part is present the formatter reports the explicit
`"Citation not available"` marker; and whenever a part is present the
result is exactly the comma-space join of the parts. -/
theorem c4_citation_formatting :
    (∀ t x : JField,
        format_citation ⟨.str "5", .str "41", .null, t, x⟩ = "Chapter 5, Section 41") ∧
    (∀ item : Item, item.chapter.truthy = false → item.«section».truthy = false →
        (item.subsection.truthy && item.subsection.notInNullForms) = false →
        format_citation item = "Citation not available") ∧
    (∀ item : Item, citationParts item ≠ [] →
        format_citation item = String.intercalate ", " (citationParts item)) := by
  refine ⟨fun t x => rfl, fun item h1 h2 h3 => ?_, fun item h => ?_⟩
  · simp [format_citation, citationParts, h1, h2, h3]
  · unfold format_citation
    cases hp : citationParts item with
    | nil => exact absurd hp h
    | cons a l => simp [hp]

/-- Claim C4, witness at concrete records. -/
theorem c4_citation_formatting_witness :
    format_citation nullSubItem = "Chapter 5, Section 41" ∧
    format_citation bareItem = "Citation not available" ∧
    format_citation nullSubItem = String.intercalate ", " (citationParts nullSubItem) :=
  ⟨c4_citation_formatting.1 .missing (.str "A"),
   c4_citation_formatting.2.1 bareItem (by decide) (by decide) (by decide),
   c4_citation_formatting.2.2 nullSubItem (by decide)⟩

/-- Claim C5: whenever `search_law` returns a context, that context is
each retained hit's `[citation] text` block, in retained order, joined by
a blank line. -/
theorem c5_context_assembly (sbert : String → List Rat)
    (indexSearch : List Rat → Nat → List Rat × List Int)
    (metadata : List Item) (query : String) (k : Nat)
    (st st' : SessionState) (ctx : String)
    (h : search_law sbert indexSearch metadata query k st = some (st', ctx)) :
    ctx = String.intercalate "\n\n" (st'.retrieved_items.map chunkOf) := by
  simp only [search_law] at h
  cases hr : retrieveLoop metadata (indexSearch (sbert query) k).2 [] with
  | none => rw [hr] at h; simp at h
  | some items =>
    rw [hr] at h
    simp only [Option.some.injEq, Prod.mk.injEq] at h
    obtain ⟨hst, hctx⟩ := h
    rw [← hst, ← hctx]

/-- Claim C5, witness: two retained hits with texts `"A"`, `"B"` and
citations `"Chapter 1"`, `"Chapter 2"` assemble to
`"[Chapter 1, Section 7] A\n\n[Chapter 2, Section 8] B"`. -/
theorem c5_context_assembly_witness :
    "[Chapter 1, Section 7] A\n\n[Chapter 2, Section 8] B" =
      String.intercalate "\n\n"
        ((SessionState.mk abMeta "[Chapter 1, Section 7] A\n\n[Chapter 2, Section 8] B").retrieved_items.map chunkOf) :=
  c5_context_assembly sbert0 searchTwo abMeta "q" 2 ⟨[], ""⟩
    ⟨abMeta, "[Chapter 1, Section 7] A\n\n[Chapter 2, Section 8] B"⟩ "[Chapter 1, Section 7] A\n\n[Chapter 2, Section 8] B" (by decide)

/-- Claim C6: when the index search returns its `(distance, index)` pairs
ascending by distance with at most `k` of them, the retained hits keep
that ascending-distance order and number at most `k`; forgetting the
distances recovers exactly the code's retained list. -/
theorem c6_order_and_bound (metadata : List Item) (pairs : List (Rat × Int))
    (k : Nat) (res : List (Rat × Item)) (hk : pairs.length ≤ k)
    (hsorted : (pairs.map Prod.fst).Pairwise (· ≤ ·))
    (hrun : retrieveLoopP metadata pairs [] = some res) :
    (res.map Prod.fst).Pairwise (· ≤ ·) ∧ res.length ≤ k ∧
    retrieveLoop metadata (pairs.map Prod.snd) [] = some (res.map Prod.snd) := by
  have hsub := retrieveLoopP_fst_sublist metadata pairs [] res hrun
  refine ⟨hsorted.sublist hsub, ?_, ?_⟩
  · have hle := hsub.length_le
    simp only [List.length_map] at hle
    exact le_trans hle hk
  · rw [retrieveLoopP_map_snd metadata pairs [], hrun]
    rfl

/-- Claim C6, witness at a concrete sorted search result. -/
theorem c6_order_and_bound_witness :
    (([(1, nullSubItem), (2, emptySubItem)] : List (Rat × Item)).map
        Prod.fst).Pairwise (· ≤ ·) ∧
    ([(1, nullSubItem), (2, emptySubItem)] : List (Rat × Item)).length ≤ 2 ∧
    retrieveLoop twoItemMeta (([((1 : Rat), (0 : Int)), (2, 1)]).map Prod.snd) [] =
      some (([(1, nullSubItem), (2, emptySubItem)] : List (Rat × Item)).map Prod.snd) :=
  c6_order_and_bound twoItemMeta [(1, 0), (2, 1)] 2 [(1, nullSubItem), (2, emptySubItem)]
    (by decide) (by decide) (by decide)

/-- Claim C7, counterexample: a one-vector embeddings file and a
two-record metadata file disagree in count, yet loading succeeds and the
system proceeds to serve queries — the count comparison the claim
describes does not exist in `load_embeddings`. -/
theorem c7_mismatch_counterexample :
    load_embeddings (some [[1]]) (some twoItemMeta) = some ([[1]], twoItemMeta) ∧
    servesQueries (load_embeddings (some [[1]]) (some twoItemMeta)) = true ∧
    ¬ ([[(1 : Rat)]].length = twoItemMeta.length) := by
  decide

/-- Claim C7, amended: corpus loading reports a load error (returning
`None`s rather than crashing) exactly when the embeddings file or the
metadata file is missing or malformed, and queries are served exactly on
success; a count disagreement between the two artifacts is not detected. -/
theorem c7_load_error (embFile : Option (List (List Rat)))
    (metaFile : Option (List Item)) :
    (load_embeddings embFile metaFile = none ↔ embFile = none ∨ metaFile = none) ∧
    (servesQueries (load_embeddings embFile metaFile) = true ↔
      load_embeddings embFile metaFile ≠ none) := by
  cases embFile <;> cases metaFile <;> simp [load_embeddings, servesQueries]

/-- Claim C8, counterexample: `search_law` writes the retained hits and
the assembled context into the session state, so the post-state differs
from the pre-state — a side effect beyond the returned value. -/
theorem c8_session_write_counterexample :
    search_law sbert0 searchTwo twoItemMeta "q" 2 ⟨[], "prior"⟩ =
      some (⟨twoItemMeta, "[Chapter 5, Section 41] A\n\n[Chapter 5, Section 41] B"⟩,
        "[Chapter 5, Section 41] A\n\n[Chapter 5, Section 41] B") ∧
    (⟨twoItemMeta, "[Chapter 5, Section 41] A\n\n[Chapter 5, Section 41] B"⟩ : SessionState) ≠
      ⟨[], "prior"⟩ := by
  decide

/-- Claim C8, amended: the only effect of `search_law` beyond its return
value is overwriting the session fields `retrieved_items` and
`llm_context` with the retained hits and the returned context; the
post-state is fully determined by the result and carries nothing of the
prior state. -/
theorem c8_session_write (sbert : String → List Rat)
    (indexSearch : List Rat → Nat → List Rat × List Int)
    (metadata : List Item) (query : String) (k : Nat)
    (st st' : SessionState) (ctx : String)
    (h : search_law sbert indexSearch metadata query k st = some (st', ctx)) :
    ∃ items, retrieveLoop metadata (indexSearch (sbert query) k).2 [] = some items ∧
      st' = { retrieved_items := items, llm_context := ctx } := by
  simp only [search_law] at h
  cases hr : retrieveLoop metadata (indexSearch (sbert query) k).2 [] with
  | none => rw [hr] at h; simp at h
  | some items =>
    rw [hr] at h
    simp only [Option.some.injEq, Prod.mk.injEq] at h
    obtain ⟨hst, hctx⟩ := h
    exact ⟨items, rfl, by rw [← hst, hctx]⟩

/-- Claim C8, witness for the amended theorem at a concrete run. -/
theorem c8_session_write_witness :
    ∃ items, retrieveLoop twoItemMeta (searchTwo (sbert0 "q") 2).2 [] = some items ∧
      (⟨twoItemMeta, "[Chapter 5, Section 41] A\n\n[Chapter 5, Section 41] B"⟩ : SessionState) =
        { retrieved_items := items,
          llm_context := "[Chapter 5, Section 41] A\n\n[Chapter 5, Section 41] B" } :=
  c8_session_write sbert0 searchTwo twoItemMeta "q" 2 ⟨[], "prior"⟩
    ⟨twoItemMeta, "[Chapter 5, Section 41] A\n\n[Chapter 5, Section 41] B"⟩
    "[Chapter 5, Section 41] A\n\n[Chapter 5, Section 41] B" (by decide)

/-- Claim C9: `search_law` never reads the prior session state, so two
invocations with the same question, encoder, index and corpus return
identical results (retained hits, their order, and context) whatever
session states the two calls start from — in particular calling it twice
in a row yields identical `RetrievalResult`s. -/
theorem c9_retrieve_deterministic (sbert : String → List Rat)
    (indexSearch : List Rat → Nat → List Rat × List Int)
    (metadata : List Item) (query : String) (k : Nat) (stA stB : SessionState) :
    search_law sbert indexSearch metadata query k stA =
      search_law sbert indexSearch metadata query k stB :=
  rfl

/-- Claim C10: the guard skips a neighbor index only when it is at least
`len(metadata)`; the negative sentinel `-1` passes the guard and resolves,
by Python negative indexing, to the LAST metadata record, which is then
retained as a hit although no neighbor matched it. -/
theorem c10_negative_index (metadata : List Item) (h : metadata ≠ [])
    (n : Int) (hn : (metadata.length : Int) ≤ n) :
    retrieveLoop metadata [n, -1] [] = some [metadata.getLast h] := by
  have hpos : 0 < metadata.length := List.length_pos.mpr h
  have hget : pyGet metadata (-1) = some (metadata.getLast h) := by
    unfold pyGet
    rw [if_neg (by omega), if_pos (by omega)]
    have htn : ((-1 : Int) + (metadata.length : Int)).toNat = metadata.length - 1 := by
      omega
    rw [htn, List.getLast_eq_get]
    exact List.get?_eq_get _
  simp only [retrieveLoop]
  rw [if_neg (not_lt.mpr hn), if_pos (by omega), hget]
  simp [retrieveLoop]

/-- Claim C10, witness: on the two-record corpus, the out-of-range index 5
is skipped and the sentinel -1 resolves to the last record. -/
theorem c10_negative_index_witness :
    retrieveLoop twoItemMeta [5, -1] [] =
      some [twoItemMeta.getLast (by decide)] :=
  c10_negative_index twoItemMeta (by decide) 5 (by decide)
